import Mathlib

/-!
Verification of the FeatureFinder detection code.

This file is a shallow embedding of the two source modules
`featureFinder/detection_settings.py` (the detection-profile catalog and its
normalization) and `featureFinder/processing_support.py` (the geometry
helpers), together with theorems settling the specified properties.

Modelling conventions:
* Python ints are `ℤ`; Python floats are exact rationals `ℚ` (or `ℝ` where
  transcendental functions are involved, as in `math.atan2`).
* Python `int(x)` conversion truncates toward zero; it is modelled by `py_int`.
* Raising an exception is modelled with `Except`; the `ValueError` that
  `scipy.spatial.KDTree` raises on an empty point list (the spec's
  `InvalidInput`) is the constructor `FFError.invalidInput`.
* Each Python class of `detection_settings.py` becomes a constructor function
  on the record `DetectionProfile`; `self.field = v` becomes a record update.
-/

namespace FeatureFinder

/-- Error taxonomy of the geometry helpers.  `invalidInput` models the
exception raised when `get_nearest_point` receives an empty candidate list. -/
inductive FFError where
  | invalidInput
deriving DecidableEq

/-- Python `int(q)` on an exact rational: truncation toward zero
(floor for nonnegative values, ceiling for negative ones). -/
def py_int (q : ℚ) : ℤ := if 0 ≤ q then ⌊q⌋ else ⌈q⌉

/-- The record of detection parameters carried by `DefaultDetection` and its
subclasses in `detection_settings.py`.  Field names follow the source;
`orientation_left`/`orientation_right` are `[X flip, Y flip, rotation]`
triples, size ranges are `(min, max)` pairs of pixel areas. -/
structure DetectionProfile where
  circle_size : ℤ × ℤ
  circularity_min : ℚ
  default_pivot_point : Option (ℤ × ℤ)
  deviation_cutoff : ℤ
  gauss : ℤ
  hough_min_length : ℤ
  rect_size : ℤ × ℤ
  threshold : ℤ
  ang2pxl : ℤ
  default_clock_angle : ℚ
  fid_triangle_area : ℚ
  orientation_left : Bool × Bool × ℚ
  orientation_right : Bool × Bool × ℚ
deriving DecidableEq

/-- `DefaultDetection._even_to_odd`: force the kernel size to an odd value
that is at least 1.  `if val < 0: val = 1; elif int(val) % 2 == 0: val += 1;
return int(val)`. -/
def even_to_odd (val : ℚ) : ℤ :=
  if val < 0 then 1
  else if py_int val % 2 = 0 then py_int (val + 1)
  else py_int val

/-- `DefaultDetection._limit_fiducial_size`: clamp `circle_size` so fiducials
never exceed the enclosing feature size.  `new_max` becomes `rect_size[0]`
when `circle_size[1] > rect_size[0]`, and if `circle_size[0]` exceeds that new
maximum the minimum is reset to 0. -/
def limit_fiducial_size (p : DetectionProfile) : DetectionProfile :=
  if p.rect_size.1 < p.circle_size.2 then
    { p with circle_size :=
        (if p.rect_size.1 < p.circle_size.1 then 0 else p.circle_size.1, p.rect_size.1) }
  else p

/-- The class-attribute defaults of `DefaultDetection` (lines 9-23). -/
def classDefaults : DetectionProfile where
  circle_size := (1000, 6000)
  circularity_min := 8/10
  default_pivot_point := some (1800, 1050)
  deviation_cutoff := 100
  gauss := 11
  hough_min_length := 30
  rect_size := (10000, 30000)
  threshold := 30
  ang2pxl := 65
  default_clock_angle := 0
  fid_triangle_area := 0
  orientation_left := (false, false, 0)
  orientation_right := (false, false, 0)

/-- The body of `DefaultDetection.__init__`: normalize the kernel, then clamp
the fiducial size. -/
def normalizeProfile (p : DetectionProfile) : DetectionProfile :=
  limit_fiducial_size { p with gauss := even_to_odd (p.gauss : ℚ) }

/-- `DefaultDetection.set_test_system_specifics` is `pass`:
every tag is a no-op. -/
def DefaultDetection.set_test_system_specifics
    (p : DetectionProfile) (_ : String) : DetectionProfile := p

/-- `DefaultDetection(**kwargs)`: kwargs are accepted but unused
(`__init__` never calls `_check_kwargs`), so the tag is ignored. -/
def DefaultDetection.init (_ : Option String) : DetectionProfile :=
  normalizeProfile classDefaults

/-- `_check_kwargs`: apply `set_test_system_specifics` when a `test_system`
keyword is present. -/
def check_kwargs (set : DetectionProfile → String → DetectionProfile)
    (p : DetectionProfile) (tag : Option String) : DetectionProfile :=
  match tag with
  | none => p
  | some t => set p t

/-- `GalileoDetection.set_test_system_specifics`: `"JOHNNY5"` and `"BAT"` are
the only recognized tags; anything else falls through unchanged. -/
def GalileoDetection.set_test_system_specifics
    (p : DetectionProfile) (t : String) : DetectionProfile :=
  if t = "JOHNNY5" then { p with hough_min_length := 40 }
  else if t = "BAT" then
    { p with default_pivot_point := none, orientation_right := (true, false, 0) }
  else p

/-- `GalileoDetection.__init__`: run the base constructor, override the listed
fields, then handle kwargs. -/
def GalileoDetection.init (tag : Option String) : DetectionProfile :=
  check_kwargs GalileoDetection.set_test_system_specifics
    { DefaultDetection.init none with
        ang2pxl := 65
        circle_size := (1000, 5000)
        circularity_min := 7/10
        default_clock_angle := -5
        default_pivot_point := some (1900, 1100)
        deviation_cutoff := 150
        fid_triangle_area := 98/10
        gauss := 1
        hough_min_length := 50
        orientation_left := (false, false, 0)
        orientation_right := (false, false, 0)
        rect_size := (10000, 50000)
        threshold := 10 }
    tag

/-- `MidasDetection.set_test_system_specifics`: `"PIN"` is the only
recognized tag. -/
def MidasDetection.set_test_system_specifics
    (p : DetectionProfile) (t : String) : DetectionProfile :=
  if t = "PIN" then
    { p with
        ang2pxl := 80
        circle_size := (1000, 10000)
        circularity_min := 3/10
        default_clock_angle := 0
        fid_triangle_area := 124/10
        gauss := 201
        orientation_left := (true, false, 0)
        orientation_right := (true, true, 0) }
  else p

/-- `MidasDetection.__init__`. -/
def MidasDetection.init (tag : Option String) : DetectionProfile :=
  check_kwargs MidasDetection.set_test_system_specifics
    { DefaultDetection.init none with
        ang2pxl := 65
        circle_size := (1000, 6000)
        circularity_min := 8/10
        default_clock_angle := -5
        default_pivot_point := none
        deviation_cutoff := 200
        fid_triangle_area := 118/10
        gauss := 89
        hough_min_length := 0
        orientation_left := (true, false, -90)
        orientation_right := (false, false, 90)
        rect_size := (15000, 35000)
        threshold := 100 }
    tag

/-- `ML2Detection.set_test_system_specifics`: `"TET"` is the only recognized
tag. -/
def ML2Detection.set_test_system_specifics
    (p : DetectionProfile) (t : String) : DetectionProfile :=
  if t = "TET" then
    { p with
        ang2pxl := 65
        fid_triangle_area := 593/10
        orientation_left := (false, false, 90)
        orientation_right := (false, false, 90) }
  else p

/-- `ML2Detection.__init__` (it does not override `hough_min_length`). -/
def ML2Detection.init (tag : Option String) : DetectionProfile :=
  check_kwargs ML2Detection.set_test_system_specifics
    { DefaultDetection.init none with
        ang2pxl := 80
        circle_size := (1000, 10000)
        circularity_min := 2/10
        default_clock_angle := -5
        default_pivot_point := none
        deviation_cutoff := 150
        fid_triangle_area := 583/10
        gauss := 1
        orientation_left := (false, true, 90)
        orientation_right := (true, true, 90)
        rect_size := (10000, 50000)
        threshold := 30 }
    tag

/-- `HydraDetection` inherits `set_test_system_specifics` from
`DefaultDetection` (`pass`). -/
def HydraDetection.set_test_system_specifics
    (p : DetectionProfile) (t : String) : DetectionProfile :=
  DefaultDetection.set_test_system_specifics p t

/-- `HydraDetection.__init__`. -/
def HydraDetection.init (tag : Option String) : DetectionProfile :=
  check_kwargs HydraDetection.set_test_system_specifics
    { DefaultDetection.init none with
        ang2pxl := 78
        circle_size := (0, 0)
        circularity_min := 0
        default_clock_angle := 0
        default_pivot_point := none
        deviation_cutoff := 200
        fid_triangle_area := 0
        gauss := 21
        hough_min_length := 15
        orientation_left := (false, false, 0)
        orientation_right := (false, false, 0)
        rect_size := (10000, 30000)
        threshold := 30 }
    tag

/-- `TriOpticsDetection` inherits `set_test_system_specifics` from
`DefaultDetection` (`pass`). -/
def TriOpticsDetection.set_test_system_specifics
    (p : DetectionProfile) (t : String) : DetectionProfile :=
  DefaultDetection.set_test_system_specifics p t

/-- `TriOpticsDetection.__init__` (overrides only the listed fields). -/
def TriOpticsDetection.init (tag : Option String) : DetectionProfile :=
  check_kwargs TriOpticsDetection.set_test_system_specifics
    { DefaultDetection.init none with
        default_pivot_point := none
        deviation_cutoff := 250
        gauss := 1
        hough_min_length := 500
        orientation_left := (false, false, 0)
        orientation_right := (false, false, 0)
        threshold := 10 }
    tag

/-- The normalization invariants of §3 of the spec: odd kernel at least 1, and
fiducials no larger than the smallest enclosing feature. -/
def profile_invariants (p : DetectionProfile) : Prop :=
  Odd p.gauss ∧ 1 ≤ p.gauss ∧ p.circle_size.2 ≤ p.rect_size.1

/-! ### Helper lemmas about the normalization primitives -/

lemma py_int_intCast (n : ℤ) : py_int (n : ℚ) = n := by
  unfold py_int
  split
  · exact Int.floor_intCast n
  · exact Int.ceil_intCast n

lemma py_int_of_nonneg {q : ℚ} (h : 0 ≤ q) : py_int q = ⌊q⌋ := if_pos h

/-- `_even_to_odd` always yields an odd integer that is at least 1. -/
lemma even_to_odd_odd_pos (v : ℚ) : Odd (even_to_odd v) ∧ 1 ≤ even_to_odd v := by
  unfold even_to_odd
  by_cases h : v < 0
  · rw [if_pos h]
    exact ⟨odd_one, le_refl 1⟩
  · push_neg at h
    rw [if_neg (not_lt.mpr h)]
    have h0 : 0 ≤ ⌊v⌋ := Int.floor_nonneg.mpr h
    by_cases he : py_int v % 2 = 0
    · rw [if_pos he, py_int_of_nonneg (by linarith), Int.floor_add_one]
      rw [py_int_of_nonneg h] at he
      exact ⟨Int.odd_iff.mpr (by omega), by omega⟩
    · rw [if_neg he, py_int_of_nonneg h]
      rw [py_int_of_nonneg h] at he
      exact ⟨Int.odd_iff.mpr (by omega), by omega⟩

/-- On an integer input, `_even_to_odd` is the integer-level branch:
negative to 1, even incremented, odd kept. -/
lemma even_to_odd_intCast (n : ℤ) :
    even_to_odd (n : ℚ) = if n < 0 then 1 else if n % 2 = 0 then n + 1 else n := by
  unfold even_to_odd
  by_cases h : n < 0
  · rw [if_pos (by exact_mod_cast h), if_pos h]
  · rw [if_neg (by exact_mod_cast h), py_int_intCast, if_neg h]
    by_cases he : n % 2 = 0
    · rw [if_pos he, if_pos he]
      have hc : ((n : ℚ) + 1) = ((n + 1 : ℤ) : ℚ) := by push_cast; ring
      rw [hc, py_int_intCast]
    · rw [if_neg he, if_neg he]

/-- A profile whose fiducial range is already below the feature range is left
untouched by `_limit_fiducial_size`. -/
lemma limit_eq_self_of_le {p : DetectionProfile}
    (h : p.circle_size.2 ≤ p.rect_size.1) : limit_fiducial_size p = p := by
  unfold limit_fiducial_size
  rw [if_neg (not_lt.mpr h)]

/-- After `_limit_fiducial_size`, the fiducial upper bound never exceeds the
feature lower bound. -/
lemma limit_post_le (p : DetectionProfile) :
    (limit_fiducial_size p).circle_size.2 ≤ (limit_fiducial_size p).rect_size.1 := by
  unfold limit_fiducial_size
  by_cases h : p.rect_size.1 < p.circle_size.2
  · rw [if_pos h]
  · rw [if_neg h]
    exact not_lt.mp h

/-! ### Theorems for the claims -/

/-- C3: `_even_to_odd` always returns an odd integer at least 1; a negative
input yields 1; a nonnegative even integer input is incremented; input 10
yields 11 and input -3 yields 1. -/
theorem even_to_odd_spec (v : ℚ) (n : ℤ) :
    Odd (even_to_odd v) ∧ 1 ≤ even_to_odd v ∧
    (v < 0 → even_to_odd v = 1) ∧
    (0 ≤ n → n % 2 = 0 → even_to_odd (n : ℚ) = n + 1) ∧
    even_to_odd 10 = 11 ∧ even_to_odd (-3) = 1 := by
  obtain ⟨hodd, hpos⟩ := even_to_odd_odd_pos v
  refine ⟨hodd, hpos, fun hv => ?_, fun hn he => ?_, ?_, ?_⟩
  · unfold even_to_odd
    rw [if_pos hv]
  · rw [even_to_odd_intCast, if_neg (not_lt.mpr hn), if_pos he]
  · have h10 : (10 : ℚ) = ((10 : ℤ) : ℚ) := by norm_num
    rw [h10, even_to_odd_intCast]
    decide
  · have h3 : (-3 : ℚ) = ((-3 : ℤ) : ℚ) := by norm_num
    rw [h3, even_to_odd_intCast]
    decide

theorem even_to_odd_spec_witness :
    ((-3 : ℚ) < 0) ∧ even_to_odd (-3) = 1 ∧
    (0 ≤ (10 : ℤ) ∧ (10 : ℤ) % 2 = 0) ∧ even_to_odd ((10 : ℤ) : ℚ) = 10 + 1 :=
  ⟨by norm_num, (even_to_odd_spec (-3) 0).2.2.1 (by norm_num),
   ⟨by decide, by decide⟩, (even_to_odd_spec 0 10).2.2.2.1 (by decide) (by decide)⟩

/-- C4: `_limit_fiducial_size` always establishes
`circle_size.max ≤ rect_size.min`; when the original circle upper bound
exceeds the rect lower bound the upper bound becomes the rect lower bound, the
circle lower bound is reset to 0 exactly when it exceeds that new upper bound,
and otherwise the whole profile is unchanged. -/
theorem limit_fiducial_size_spec (p : DetectionProfile) :
    (limit_fiducial_size p).circle_size.2 ≤ (limit_fiducial_size p).rect_size.1 ∧
    (p.rect_size.1 < p.circle_size.2 →
      (limit_fiducial_size p).circle_size.2 = p.rect_size.1 ∧
      (p.rect_size.1 < p.circle_size.1 → (limit_fiducial_size p).circle_size.1 = 0) ∧
      (p.circle_size.1 ≤ p.rect_size.1 →
        (limit_fiducial_size p).circle_size.1 = p.circle_size.1)) ∧
    (p.circle_size.2 ≤ p.rect_size.1 → limit_fiducial_size p = p) := by
  refine ⟨limit_post_le p, fun h => ?_, fun h => limit_eq_self_of_le h⟩
  unfold limit_fiducial_size
  rw [if_pos h]
  by_cases h2 : p.rect_size.1 < p.circle_size.1
  · rw [if_pos h2]
    exact ⟨rfl, fun _ => rfl, fun hc => absurd h2 (not_lt.mpr hc)⟩
  · rw [if_neg h2]
    exact ⟨rfl, fun hc => absurd hc h2, fun _ => rfl⟩

/-- A profile on which the clamp actually fires, for the witness below:
its fiducial range (20000, 50000) overlaps the feature range (10000, 30000). -/
def clampDemo : DetectionProfile :=
  { classDefaults with circle_size := (20000, 50000) }

theorem limit_fiducial_size_spec_witness :
    (clampDemo.rect_size.1 < clampDemo.circle_size.2 ∧
      (limit_fiducial_size clampDemo).circle_size.2 = clampDemo.rect_size.1) ∧
    (clampDemo.rect_size.1 < clampDemo.circle_size.1 ∧
      (limit_fiducial_size clampDemo).circle_size.1 = 0) :=
  ⟨⟨by decide, ((limit_fiducial_size_spec clampDemo).2.1 (by decide)).1⟩,
   ⟨by decide, ((limit_fiducial_size_spec clampDemo).2.1 (by decide)).2.1 (by decide)⟩⟩

/-- C9: normalization is idempotent: `_even_to_odd` fixes its own output, and
`_limit_fiducial_size` leaves an already-clamped profile unchanged. -/
theorem normalization_idempotent :
    (∀ v : ℚ, even_to_odd ((even_to_odd v : ℤ) : ℚ) = even_to_odd v) ∧
    (∀ p : DetectionProfile,
      limit_fiducial_size (limit_fiducial_size p) = limit_fiducial_size p) := by
  constructor
  · intro v
    obtain ⟨hodd, hpos⟩ := even_to_odd_odd_pos v
    rw [even_to_odd_intCast]
    have hne : ¬(even_to_odd v % 2 = 0) := by
      rw [Int.odd_iff] at hodd
      omega
    rw [if_neg (not_lt.mpr (le_trans zero_le_one hpos)), if_neg hne]
  · intro p
    exact limit_eq_self_of_le (limit_post_le p)

/-- C10: `_limit_fiducial_size` only touches `circle_size`: every other field
is returned unchanged, and the new lower bound is the old one or 0. -/
theorem limit_fiducial_size_frame (p : DetectionProfile) :
    (limit_fiducial_size p).rect_size = p.rect_size ∧
    (limit_fiducial_size p).circularity_min = p.circularity_min ∧
    (limit_fiducial_size p).default_pivot_point = p.default_pivot_point ∧
    (limit_fiducial_size p).deviation_cutoff = p.deviation_cutoff ∧
    (limit_fiducial_size p).gauss = p.gauss ∧
    (limit_fiducial_size p).hough_min_length = p.hough_min_length ∧
    (limit_fiducial_size p).threshold = p.threshold ∧
    (limit_fiducial_size p).ang2pxl = p.ang2pxl ∧
    (limit_fiducial_size p).default_clock_angle = p.default_clock_angle ∧
    (limit_fiducial_size p).fid_triangle_area = p.fid_triangle_area ∧
    (limit_fiducial_size p).orientation_left = p.orientation_left ∧
    (limit_fiducial_size p).orientation_right = p.orientation_right ∧
    ((limit_fiducial_size p).circle_size.1 = p.circle_size.1 ∨
      (limit_fiducial_size p).circle_size.1 = 0) := by
  unfold limit_fiducial_size
  by_cases h : p.rect_size.1 < p.circle_size.2
  · rw [if_pos h]
    refine ⟨rfl, rfl, rfl, rfl, rfl, rfl, rfl, rfl, rfl, rfl, rfl, rfl, ?_⟩
    by_cases h2 : p.rect_size.1 < p.circle_size.1
    · rw [if_pos h2]
      exact Or.inr rfl
    · rw [if_neg h2]
      exact Or.inl rfl
  · rw [if_neg h]
    exact ⟨rfl, rfl, rfl, rfl, rfl, rfl, rfl, rfl, rfl, rfl, rfl, rfl, Or.inl rfl⟩

/-- `DefaultDetection()` leaves the class defaults unchanged: the default
kernel 11 is already odd and the default size ranges already satisfy the
clamp, so normalization is the identity on them. -/
lemma defaultInit_eq (tag : Option String) : DefaultDetection.init tag = classDefaults := by
  show limit_fiducial_size { classDefaults with gauss := even_to_odd ((11 : ℤ) : ℚ) }
      = classDefaults
  rw [even_to_odd_intCast]
  rfl

/-- C1: every profile of the catalog, built with any specialization tag or
none, satisfies the normalization invariants: odd kernel at least 1, and
fiducial upper bound no larger than the feature lower bound. -/
theorem catalog_profiles_normalized (tag : Option String) :
    profile_invariants (DefaultDetection.init tag) ∧
    profile_invariants (GalileoDetection.init tag) ∧
    profile_invariants (MidasDetection.init tag) ∧
    profile_invariants (ML2Detection.init tag) ∧
    profile_invariants (HydraDetection.init tag) ∧
    profile_invariants (TriOpticsDetection.init tag) := by
  have inv : ∀ p : DetectionProfile,
      (p.gauss % 2 = 1 ∧ 1 ≤ p.gauss ∧ p.circle_size.2 ≤ p.rect_size.1) →
      profile_invariants p := fun p h => ⟨Int.odd_iff.mpr h.1, h.2.1, h.2.2⟩
  rcases tag with _ | t <;>
    refine ⟨inv _ ?_, inv _ ?_, inv _ ?_, inv _ ?_, inv _ ?_, inv _ ?_⟩ <;>
    simp only [GalileoDetection.init, MidasDetection.init, ML2Detection.init,
      HydraDetection.init, TriOpticsDetection.init, defaultInit_eq, check_kwargs,
      GalileoDetection.set_test_system_specifics, MidasDetection.set_test_system_specifics,
      ML2Detection.set_test_system_specifics, HydraDetection.set_test_system_specifics,
      TriOpticsDetection.set_test_system_specifics,
      DefaultDetection.set_test_system_specifics] <;>
    first
      | decide
      | (split <;> first | decide | (split <;> decide))

/-- C6: a specialization tag outside a profile's fixed whitelist is a no-op
for that profile: `set_test_system_specifics` returns the profile unchanged
(and, being a total function, raises nothing).  `DefaultDetection`,
`HydraDetection` and `TriOpticsDetection` ignore every tag. -/
theorem unknown_tag_noop (p : DetectionProfile) (t : String) :
    (t ≠ "JOHNNY5" → t ≠ "BAT" → GalileoDetection.set_test_system_specifics p t = p) ∧
    (t ≠ "PIN" → MidasDetection.set_test_system_specifics p t = p) ∧
    (t ≠ "TET" → ML2Detection.set_test_system_specifics p t = p) ∧
    DefaultDetection.set_test_system_specifics p t = p ∧
    HydraDetection.set_test_system_specifics p t = p ∧
    TriOpticsDetection.set_test_system_specifics p t = p := by
  refine ⟨fun h1 h2 => ?_, fun h => ?_, fun h => ?_, rfl, rfl, rfl⟩
  · unfold GalileoDetection.set_test_system_specifics
    rw [if_neg h1, if_neg h2]
  · unfold MidasDetection.set_test_system_specifics
    rw [if_neg h]
  · unfold ML2Detection.set_test_system_specifics
    rw [if_neg h]

theorem unknown_tag_noop_witness :
    ("G30" ≠ "JOHNNY5" ∧ "G30" ≠ "BAT" ∧ "G30" ≠ "PIN" ∧ "G30" ≠ "TET") ∧
    GalileoDetection.set_test_system_specifics classDefaults "G30" = classDefaults ∧
    MidasDetection.set_test_system_specifics classDefaults "G30" = classDefaults ∧
    ML2Detection.set_test_system_specifics classDefaults "G30" = classDefaults ∧
    DefaultDetection.set_test_system_specifics classDefaults "G30" = classDefaults :=
  ⟨⟨by decide, by decide, by decide, by decide⟩,
   (unknown_tag_noop classDefaults "G30").1 (by decide) (by decide),
   (unknown_tag_noop classDefaults "G30").2.1 (by decide),
   (unknown_tag_noop classDefaults "G30").2.2.1 (by decide),
   (unknown_tag_noop classDefaults "G30").2.2.2.1⟩

/-! ### Geometry helpers of `processing_support.py`

Points are exact rational pixel coordinates.  `get_nearest_point` compares
squared distances, which orders and ties exactly as the Euclidean distances
the Python code compares, because `Real.sqrt` is monotone and injective on
nonnegative arguments. -/

/-- Squared Euclidean distance between two points. -/
def sqDist (p q : ℚ × ℚ) : ℚ := (p.1 - q.1) ^ 2 + (p.2 - q.2) ^ 2

/-- `get_point_distance`: `np.sqrt((x1 - x2)**2 + (y1 - y2)**2)`. -/
noncomputable def get_point_distance (p q : ℚ × ℚ) : ℝ :=
  Real.sqrt ((sqDist p q : ℚ) : ℝ)

/-- The list comprehension of `get_nearest_point`: all indices of candidates
whose distance to `check_point` equals the minimum distance `m` (compared on
squared distances). -/
def nearestIndices (check_point : ℚ × ℚ) (references : List (ℚ × ℚ)) (m : ℚ) : List ℕ :=
  (List.range references.length).filter
    fun i => decide (sqDist check_point (references.getD i (0, 0)) = m)

/-- `get_nearest_point`: build a KD-tree on `references` (raises on an empty
list, modelled by `FFError.invalidInput`), query the minimum distance, then
return the smallest index achieving exactly that distance together with the
distance itself. -/
noncomputable def get_nearest_point (check_point : ℚ × ℚ)
    (references : List (ℚ × ℚ)) : Except FFError (ℕ × ℝ) :=
  match (references.map fun r => sqDist check_point r).min? with
  | none => .error .invalidInput
  | some m =>
    match (nearestIndices check_point references m).min? with
    | none => .error .invalidInput
    | some i => .ok (i, Real.sqrt ((m : ℚ) : ℝ))

/-- `get_pxl_midpoint`: `(int((x1 + x2) / 2), int((y1 + y2) / 2))`. -/
def get_pxl_midpoint (p1 p2 : ℚ × ℚ) : ℤ × ℤ :=
  (py_int ((p1.1 + p2.1) / 2), py_int ((p1.2 + p2.2) / 2))

/-- `math.atan2(y, x)` idealized over the reals: the argument of the complex
number `x + y*i`, in the interval `(-pi, pi]`, with `atan2 0 0 = 0`. -/
noncomputable def atan2 (y x : ℝ) : ℝ := Complex.arg ⟨x, y⟩

/-- `get_point_angle`: `math.degrees(math.atan2(y2 - y1, x2 - x1))`. -/
noncomputable def get_point_angle (p1 p2 : ℝ × ℝ) : ℝ :=
  atan2 (p2.2 - p1.2) (p2.1 - p1.1) * 180 / Real.pi

/-! ### Helper lemmas for the geometry claims -/

lemma list_min?_isSome {α : Type} [Min α] {l : List α} (h : l ≠ []) :
    ∃ m, l.min? = some m := by
  cases l with
  | nil => exact absurd rfl h
  | cons a l => exact ⟨_, rfl⟩

lemma list_min?_spec {α : Type} [LinearOrder α] {l : List α} {m : α}
    (h : l.min? = some m) : m ∈ l ∧ ∀ b ∈ l, m ≤ b :=
  ⟨List.min?_mem (fun a b => min_choice a b) h,
   fun b hb => (List.le_min?_iff (fun _ _ _ => le_min_iff) h).1 (le_refl m) b hb⟩

lemma mem_nearestIndices_iff {c : ℚ × ℚ} {refs : List (ℚ × ℚ)} {m : ℚ} {j : ℕ} :
    j ∈ nearestIndices c refs m ↔ ∃ hj : j < refs.length, sqDist c refs[j] = m := by
  unfold nearestIndices
  rw [List.mem_filter, List.mem_range]
  constructor
  · rintro ⟨hj, hd⟩
    rw [decide_eq_true_eq, List.getD_eq_getElem?_getD, List.getElem?_eq_getElem hj,
      Option.getD_some] at hd
    exact ⟨hj, hd⟩
  · rintro ⟨hj, hd⟩
    refine ⟨hj, ?_⟩
    rw [decide_eq_true_eq, List.getD_eq_getElem?_getD, List.getElem?_eq_getElem hj,
      Option.getD_some]
    exact hd

lemma sqDist_nonneg (p q : ℚ × ℚ) : 0 ≤ sqDist p q := by
  unfold sqDist
  positivity

/-- Truncation toward zero: the integer `py_int q` is no farther from zero
than `q` and within distance 1 of `q`. -/
lemma py_int_trunc (q : ℚ) : |(py_int q : ℚ)| ≤ |q| ∧ |q - py_int q| < 1 := by
  unfold py_int
  by_cases h : 0 ≤ q
  · rw [if_pos h]
    have h1 : ((⌊q⌋ : ℤ) : ℚ) ≤ q := Int.floor_le q
    have h2 : q - 1 < ((⌊q⌋ : ℤ) : ℚ) := Int.sub_one_lt_floor q
    have h3 : (0 : ℚ) ≤ ((⌊q⌋ : ℤ) : ℚ) := by exact_mod_cast Int.floor_nonneg.mpr h
    rw [abs_of_nonneg h3, abs_of_nonneg h,
      abs_of_nonneg (by linarith : (0 : ℚ) ≤ q - ((⌊q⌋ : ℤ) : ℚ))]
    constructor <;> linarith
  · push_neg at h
    rw [if_neg (not_le.mpr h)]
    have h1 : q ≤ ((⌈q⌉ : ℤ) : ℚ) := Int.le_ceil q
    have h2 : ((⌈q⌉ : ℤ) : ℚ) < q + 1 := Int.ceil_lt_add_one q
    have h3 : ((⌈q⌉ : ℤ) : ℚ) ≤ 0 := by
      exact_mod_cast Int.ceil_le.mpr (by exact_mod_cast h.le : q ≤ ((0 : ℤ) : ℚ))
    rw [abs_of_nonpos h3, abs_of_nonpos h.le,
      abs_of_nonpos (by linarith : q - ((⌈q⌉ : ℤ) : ℚ) ≤ 0)]
    constructor <;> linarith

/-! ### Theorems for the geometry claims -/

/-- C5: an empty candidate list makes `get_nearest_point` fail with
`InvalidInput` (the KD-tree construction rejects the input before any result
is produced), not return a value or fail differently. -/
theorem get_nearest_point_empty (check_point : ℚ × ℚ) :
    get_nearest_point check_point [] = .error .invalidInput := rfl

/-- C2: on a non-empty candidate list, `get_nearest_point` returns the index
of a candidate at minimum Euclidean distance to the query together with that
distance, and among candidates at the exact minimum distance it returns the
lowest index. -/
theorem get_nearest_point_min_lowest_index (check_point : ℚ × ℚ)
    (refs : List (ℚ × ℚ)) (h : refs ≠ []) :
    ∃ i, ∃ hi : i < refs.length,
      get_nearest_point check_point refs
          = .ok (i, get_point_distance check_point refs[i]) ∧
      (∀ j, ∀ hj : j < refs.length,
        get_point_distance check_point refs[i]
          ≤ get_point_distance check_point refs[j]) ∧
      (∀ j, ∀ hj : j < refs.length,
        get_point_distance check_point refs[j]
          = get_point_distance check_point refs[i] → i ≤ j) := by
  have hmapne : (refs.map fun r => sqDist check_point r) ≠ [] := by
    simpa using h
  obtain ⟨m, hm⟩ := list_min?_isSome hmapne
  obtain ⟨hmmem, hmle⟩ := list_min?_spec hm
  obtain ⟨r, hrmem, hrm⟩ := List.mem_map.mp hmmem
  obtain ⟨k, hk, hkr⟩ := List.mem_iff_getElem.mp hrmem
  have hkfilt : k ∈ nearestIndices check_point refs m :=
    mem_nearestIndices_iff.mpr ⟨hk, by rw [hkr]; exact hrm⟩
  obtain ⟨i, hmini⟩ := list_min?_isSome (List.ne_nil_of_mem hkfilt)
  obtain ⟨hifilt, himin⟩ := list_min?_spec hmini
  obtain ⟨hi, hieq⟩ := mem_nearestIndices_iff.mp hifilt
  have hsqmin : ∀ j, ∀ hj : j < refs.length, m ≤ sqDist check_point refs[j] := by
    intro j hj
    exact hmle _ (List.mem_map.mpr ⟨refs[j], List.getElem_mem hj, rfl⟩)
  refine ⟨i, hi, ?_, ?_, ?_⟩
  · unfold get_nearest_point
    rw [hm]
    dsimp only
    rw [hmini]
    unfold get_point_distance
    rw [hieq]
  · intro j hj
    unfold get_point_distance
    apply Real.sqrt_le_sqrt
    have : sqDist check_point refs[i] ≤ sqDist check_point refs[j] := by
      rw [hieq]
      exact hsqmin j hj
    exact_mod_cast this
  · intro j hj hje
    unfold get_point_distance at hje
    have hsq : sqDist check_point refs[j] = sqDist check_point refs[i] := by
      have := (Real.sqrt_inj (by exact_mod_cast sqDist_nonneg check_point refs[j])
        (by exact_mod_cast sqDist_nonneg check_point refs[i])).mp hje
      exact_mod_cast this
    exact himin j (mem_nearestIndices_iff.mpr ⟨hj, by rw [hsq, hieq]⟩)

/-- Two candidates both at Euclidean distance 5 from the origin; the tie must
resolve to index 0. -/
def tiePoints : List (ℚ × ℚ) := [(3, 4), (0, 5)]

theorem get_nearest_point_min_lowest_index_witness :
    tiePoints ≠ [] ∧
    ∃ i, ∃ hi : i < tiePoints.length,
      get_nearest_point (0, 0) tiePoints
          = .ok (i, get_point_distance (0, 0) tiePoints[i]) ∧
      (∀ j, ∀ hj : j < tiePoints.length,
        get_point_distance (0, 0) tiePoints[i]
          ≤ get_point_distance (0, 0) tiePoints[j]) ∧
      (∀ j, ∀ hj : j < tiePoints.length,
        get_point_distance (0, 0) tiePoints[j]
          = get_point_distance (0, 0) tiePoints[i] → i ≤ j) :=
  ⟨by decide, get_nearest_point_min_lowest_index (0, 0) tiePoints (by decide)⟩

/-- C8: `get_pxl_midpoint` truncates each exact mean coordinate toward zero:
each returned integer coordinate is no farther from zero than the mean and
differs from it by strictly less than 1 (which pins it down as the
toward-zero truncation); being a pure function of its arguments, it is
deterministic. -/
theorem get_pxl_midpoint_spec (p1 p2 : ℚ × ℚ) :
    |((get_pxl_midpoint p1 p2).1 : ℚ)| ≤ |(p1.1 + p2.1) / 2| ∧
    |(p1.1 + p2.1) / 2 - (get_pxl_midpoint p1 p2).1| < 1 ∧
    |((get_pxl_midpoint p1 p2).2 : ℚ)| ≤ |(p1.2 + p2.2) / 2| ∧
    |(p1.2 + p2.2) / 2 - (get_pxl_midpoint p1 p2).2| < 1 :=
  ⟨(py_int_trunc ((p1.1 + p2.1) / 2)).1, (py_int_trunc ((p1.1 + p2.1) / 2)).2,
   (py_int_trunc ((p1.2 + p2.2) / 2)).1, (py_int_trunc ((p1.2 + p2.2) / 2)).2⟩

/-- C7: `get_point_angle` is `atan2(dy, dx)` converted to degrees, its value
lies in `(-180, 180]`, and two equal points yield angle 0. -/
theorem get_point_angle_spec (p1 p2 : ℝ × ℝ) :
    get_point_angle p1 p2 = atan2 (p2.2 - p1.2) (p2.1 - p1.1) * 180 / Real.pi ∧
    get_point_angle p1 p2 ∈ Set.Ioc (-180 : ℝ) 180 ∧
    get_point_angle p1 p1 = 0 := by
  refine ⟨rfl, ?_, ?_⟩
  · have harg := Complex.arg_mem_Ioc ⟨p2.1 - p1.1, p2.2 - p1.2⟩
    rw [Set.mem_Ioc] at harg
    obtain ⟨h1, h2⟩ := harg
    have hπ := Real.pi_pos
    unfold get_point_angle atan2
    rw [Set.mem_Ioc]
    constructor
    · rw [lt_div_iff₀ hπ]
      linarith
    · rw [div_le_iff₀ hπ]
      linarith
  · unfold get_point_angle atan2
    have hz : (⟨p1.1 - p1.1, p1.2 - p1.2⟩ : ℂ) = 0 := by
      apply Complex.ext <;> simp
    rw [hz, Complex.arg_zero, zero_mul, zero_div]

end FeatureFinder
